import Mathlib

/-
Verification development for the firefly-iii-ai-categorize service.

Shallow embedding of the job registry (src/JobList.js), the webhook
validation and description normalization (src/App.js, method
handleWebhook), and the human-input resolver (src/App.js, method
setCategory).  JavaScript Maps keyed by job id are modelled as lists of
jobs with pairwise-distinct ids (predicate WF); the uuid generator is
modelled as a fresh natural-number counter carried in the store, which
captures its collision-freedom contract; wall-clock times are naturals
passed in explicitly.  Effects are made explicit: every mutating
operation returns the new store together with the list of events it
emitted on the job list's event emitter.
-/

namespace FireflyAI

/-- Job status strings used in src/JobList.js. -/
inductive Status
  | queued
  | in_progress
  | human_input
  | finished
  | failed
deriving DecidableEq, Repr

/-- A transaction as carried in the webhook payload (src/App.js).  A
field that may be missing from the JSON is an `Option`; for
`category_id`, `some none` models an explicit JSON `null` while `none`
models an absent field, because the code distinguishes the two with a
strict `!== null` comparison. -/
structure Transaction where
  type : Option String
  category_id : Option (Option String)
  description : Option String
  destination_name : Option String
deriving DecidableEq, Repr

/-- A value stored in a job's open data bag. -/
inductive Value
  | vStr : String → Value
  | vNull : Value
  | vTxs : List Transaction → Value
deriving DecidableEq, Repr

/-- A JavaScript object used as an open attribute bag: a key/value list,
lookup returning the first binding of a key. -/
abbrev DataBag := List (String × Value)

/-- JavaScript object spread `\x7b...old, ...new\x7d`: keys of `new` win,
all other keys of `old` keep their prior value (src/JobList.js,
updateJobData). -/
def mergeData (old new : DataBag) : DataBag :=
  old.filter (fun kv => (List.lookup kv.1 new).isNone) ++ new

/-- A job record (src/JobList.js, createJob).  `errorMessage` is absent
until setJobFailed sets it. -/
structure Job where
  id : Nat
  created : Nat
  status : Status
  data : DataBag
  errorMessage : Option String
deriving DecidableEq, Repr

/-- The job registry: the Map of jobs plus the state of the fresh-id
generator modelling uuid. -/
structure JobList where
  jobs : List Job
  nextId : Nat
deriving DecidableEq, Repr

/-- Events emitted on the JobList event emitter; each carries the
affected job (or its id, for deletion) and the full jobs snapshot taken
right after the mutation, exactly as in src/JobList.js. -/
inductive Event
  | jobCreated : Job → List Job → Event
  | jobUpdated : Job → List Job → Event
  | jobDeleted : Nat → List Job → Event
deriving DecidableEq, Repr

/-- `getJob(id)` (src/JobList.js). -/
def getJob (s : JobList) (id : Nat) : Option Job :=
  s.jobs.find? (fun j => j.id == id)

/-- `getJobs()` (src/JobList.js). -/
def getJobs (s : JobList) : List Job :=
  s.jobs

/-- Well-formedness of the registry: job ids are pairwise distinct (a
JavaScript Map cannot hold two entries with the same key) and below the
fresh-id counter.  Every reachable store satisfies this. -/
def WF (s : JobList) : Prop :=
  (s.jobs.map Job.id).Nodup ∧ ∀ j ∈ s.jobs, j.id < s.nextId

instance (s : JobList) : Decidable (WF s) := by
  unfold WF; infer_instance

/-- `createJob(data)` (src/JobList.js): allocates a fresh id and the
creation timestamp, stores the job with status queued, emits
`job created` with the job and the full snapshot, returns the job. -/
def createJob (now : Nat) (data : DataBag) (s : JobList) :
    Job × JobList × List Event :=
  let id := s.nextId
  let job : Job := { id := id, created := now, status := Status.queued,
                     data := data, errorMessage := none }
  let jobs' := s.jobs ++ [job]
  (job, { jobs := jobs', nextId := s.nextId + 1 },
   [Event.jobCreated job jobs'])

/-- `updateJobData(id, data)` (src/JobList.js): merges the partial data
into the job's bag and emits `job updated`; no-op if the id is unknown. -/
def updateJobData (s : JobList) (id : Nat) (data : DataBag) :
    JobList × List Event :=
  match getJob s id with
  | none => (s, [])
  | some job =>
    let job' := { job with data := mergeData job.data data }
    let jobs' := s.jobs.map (fun j => if j.id == id then job' else j)
    ({ s with jobs := jobs' }, [Event.jobUpdated job' jobs'])

/-- `setJobInProgress(id)` (src/JobList.js). -/
def setJobInProgress (s : JobList) (id : Nat) : JobList × List Event :=
  match getJob s id with
  | none => (s, [])
  | some job =>
    let job' := { job with status := Status.in_progress }
    let jobs' := s.jobs.map (fun j => if j.id == id then job' else j)
    ({ s with jobs := jobs' }, [Event.jobUpdated job' jobs'])

/-- `setJobFinished(id)` (src/JobList.js). -/
def setJobFinished (s : JobList) (id : Nat) : JobList × List Event :=
  match getJob s id with
  | none => (s, [])
  | some job =>
    let job' := { job with status := Status.finished }
    let jobs' := s.jobs.map (fun j => if j.id == id then job' else j)
    ({ s with jobs := jobs' }, [Event.jobUpdated job' jobs'])

/-- `setJobHumanInput(id)` (src/JobList.js). -/
def setJobHumanInput (s : JobList) (id : Nat) : JobList × List Event :=
  match getJob s id with
  | none => (s, [])
  | some job =>
    let job' := { job with status := Status.human_input }
    let jobs' := s.jobs.map (fun j => if j.id == id then job' else j)
    ({ s with jobs := jobs' }, [Event.jobUpdated job' jobs'])

/-- `setJobFailed(jobId, errorMessage)` (src/JobList.js): sets status
failed, records the message, emits `job updated`. -/
def setJobFailed (s : JobList) (jobId : Nat) (errorMessage : String) :
    JobList × List Event :=
  match getJob s jobId with
  | none => (s, [])
  | some job =>
    let job' := { job with status := Status.failed,
                           errorMessage := some errorMessage }
    let jobs' := s.jobs.map (fun j => if j.id == jobId then job' else j)
    ({ s with jobs := jobs' }, [Event.jobUpdated job' jobs'])

/-- The `setJobFailed` of the older JobList variant kept in the
repository (src/unnamed/part_002, lines 68-74): same state change, but
it emits no event at all. -/
def setJobFailedVariant (s : JobList) (jobId : Nat) (errorMessage : String) :
    JobList × List Event :=
  match getJob s jobId with
  | none => (s, [])
  | some job =>
    let job' := { job with status := Status.failed,
                           errorMessage := some errorMessage }
    let jobs' := s.jobs.map (fun j => if j.id == jobId then job' else j)
    ({ s with jobs := jobs' }, [])

/-- The deletion condition of `cleanupOldJobs` (src/JobList.js): status
finished or failed, and `now - job.created > 24` (the literal retention
threshold in the code is 24 milliseconds; an earlier 24-hour version is
commented out).  Natural subtraction truncates at zero exactly where the
JavaScript difference would be negative and hence also below 24. -/
def shouldDelete (now : Nat) (job : Job) : Bool :=
  (job.status == Status.finished || job.status == Status.failed) &&
    decide (24 < now - job.created)

/-- One iteration of the `cleanupOldJobs` loop: if the scanned job meets
the deletion condition, delete its id from the current jobs and emit
`job deleted` with the remaining-jobs snapshot. -/
def cleanupStep (now : Nat) (acc : List Job × List Event) (job : Job) :
    List Job × List Event :=
  if shouldDelete now job then
    let jobs' := acc.1.filter (fun j => !(j.id == job.id))
    (jobs', acc.2 ++ [Event.jobDeleted job.id jobs'])
  else acc

/-- `cleanupOldJobs()` (src/JobList.js): scans the entries present when
the sweep starts, deleting the eligible ones; each step can only delete
the entry being visited, so scanning the initial list while threading
the shrinking map is exactly the live-iterator behaviour. -/
def cleanupOldJobs (now : Nat) (s : JobList) : JobList × List Event :=
  let r := s.jobs.foldl (cleanupStep now) (s.jobs, [])
  ({ s with jobs := r.1 }, r.2)

/-- `manualCleanup()` (src/JobList.js): the on-demand trigger of the same
sweep. -/
def manualCleanup (now : Nat) (s : JobList) : JobList × List Event :=
  cleanupOldJobs now s

/-- ASCII lowering, how JavaScript case-insensitive regex matching acts
on the ASCII-only pattern literals of src/App.js. -/
def lowerChar (c : Char) : Char :=
  if 'A' ≤ c ∧ c ≤ 'Z' then Char.ofNat (c.toNat + 32) else c

/-- Regex word character, for the `\b` assertions in the patterns. -/
def isWordChar (c : Char) : Bool :=
  ('a' ≤ c && c ≤ 'z') || ('A' ≤ c && c ≤ 'Z') ||
  ('0' ≤ c && c ≤ '9') || c == '_'

/-- One pattern of the `exactSubstringsToRemove` list of src/App.js:
a case-insensitive literal, optionally followed by a `\b` word-boundary
assertion, optionally extended by `.*$`.  The regexes carry no `m` flag,
so `$` asserts the very end of the input and `.` never crosses a line
terminator: a `.*$` tail therefore matches at a position exactly when
the remainder after the literal is free of line terminators, in which
case the match runs to the end of the input. -/
structure StripRule where
  lit : List Char
  boundaryAfter : Bool
  toEnd : Bool
deriving DecidableEq, Repr

/-- The ECMAScript LineTerminator characters excluded by `.` and blocking
an end-of-input `$` after `.*`. -/
def isLineTerminator (c : Char) : Bool :=
  c == '\n' || c == '\r' || c == '\u2028' || c == '\u2029'

/-- Match the rule's literal case-insensitively at the head of the
string, returning the remainder. -/
def stripLit : List Char → List Char → Option (List Char)
  | [], s => some s
  | _ :: _, [] => none
  | l :: ls, c :: cs =>
    if lowerChar l = lowerChar c then stripLit ls cs else none

/-- The `\b` assertion after the literal (all `\b`-carrying literals of
the rule list end in a word character, so the assertion holds exactly
when the next character is absent or not a word character). -/
def boundaryOk (after : Bool) (rest : List Char) : Bool :=
  if after then
    match rest with
    | [] => true
    | c :: _ => !isWordChar c
  else true

/-- Whether the rule matches at the current position: the literal (and
its `\b`, when present) must match, and for a `.*$` rule the remainder
after the literal must hold no line terminator — without the `m` flag
`$` only matches at the end of the input and `.` cannot cross a line
terminator, so a position with a terminator further right yields no
match there and scanning moves on. -/
def matchHere (r : StripRule) (s : List Char) : Bool :=
  match stripLit r.lit s with
  | none => false
  | some rest =>
    boundaryOk r.boundaryAfter rest &&
    (!r.toEnd || rest.all (fun c => !isLineTerminator c))

/-- JavaScript `String.replace(pattern, '')` with a non-global regex:
remove the leftmost match only.  For a `.*$` rule a match runs to the
end of the input (matchHere only fires there when the remainder is free
of line terminators); otherwise only the literal itself is removed. -/
def applyRule (r : StripRule) : List Char → List Char
  | [] => []
  | c :: cs =>
    if matchHere r (c :: cs) then
      if r.toEnd then []
      else
        match stripLit r.lit (c :: cs) with
        | some rest => rest
        | none => c :: applyRule r cs
    else c :: applyRule r cs

/-- The rule for the pattern `PAGAMENTO POS` with a trailing `\b`. -/
def pagamentoPosRule : StripRule :=
  { lit := "PAGAMENTO POS".toList, boundaryAfter := true, toEnd := false }

/-- The rule for the pattern `CRV\*`. -/
def crvRule : StripRule :=
  { lit := "CRV*".toList, boundaryAfter := false, toEnd := false }

/-- The rule for the pattern `PAYPAL\*`. -/
def paypalRule : StripRule :=
  { lit := "PAYPAL*".toList, boundaryAfter := false, toEnd := false }

/-- The rule for the pattern `VILNIUS IRL\b.*$`. -/
def vilniusRule : StripRule :=
  { lit := "VILNIUS IRL".toList, boundaryAfter := true, toEnd := true }

/-- The rule for the pattern `DUBLIN IRL\b.*$`. -/
def dublinRule : StripRule :=
  { lit := "DUBLIN IRL".toList, boundaryAfter := true, toEnd := true }

/-- The rule for the pattern `AMSTERDAM IRL\b.*$`. -/
def amsterdamRule : StripRule :=
  { lit := "AMSTERDAM IRL".toList, boundaryAfter := true, toEnd := true }

/-- The rule for the pattern `OPERAZIONE.*$`. -/
def operazioneRule : StripRule :=
  { lit := "OPERAZIONE".toList, boundaryAfter := false, toEnd := true }

/-- The `exactSubstringsToRemove` list of src/App.js, in source order. -/
def stripRules : List StripRule :=
  [pagamentoPosRule, crvRule, paypalRule, vilniusRule, dublinRule,
   amsterdamRule, operazioneRule]

/-- The ECMAScript WhiteSpace and LineTerminator characters stripped by
`String.prototype.trim`: tab, vertical tab, form feed, space, no-break
space, BOM, the Unicode space separators, and the line terminators. -/
def isJsWhitespace (c : Char) : Bool :=
  c == ' ' || c == '\t' || c == '\n' || c == '\r' ||
  c == '\x0b' || c == '\x0c' || c == '\u00a0' || c == '\ufeff' ||
  c == '\u1680' || ('\u2000' ≤ c && c ≤ '\u200a') ||
  c == '\u2028' || c == '\u2029' || c == '\u202f' ||
  c == '\u205f' || c == '\u3000'

/-- JavaScript `String.prototype.trim`: drop leading and trailing
whitespace (WhiteSpace and LineTerminator). -/
def trimChars (s : List Char) : List Char :=
  ((s.dropWhile isJsWhitespace).reverse.dropWhile
    isJsWhitespace).reverse

/-- `removeSubstrings(description, exactSubstringsToRemove)` of
src/App.js: apply each pattern in order via `String.replace` (leftmost
match only), then trim surrounding whitespace. -/
def removeSubstrings (description : String) : String :=
  String.mk (trimChars (stripRules.foldl (fun res r => applyRule r res)
    description.toList))

/-- Index of the leftmost position at which the rule matches, the
specification-side reading of non-global `String.replace`. -/
def matchIdx (r : StripRule) : List Char → Option Nat
  | [] => if matchHere r [] then some 0 else none
  | c :: cs =>
    if matchHere r (c :: cs) then some 0
    else (matchIdx r cs).map (fun i => i + 1)

/-- Specification-side single-rule strip: locate the leftmost match and
remove it (the whole tail for a to-end rule, else just the literal). -/
def applyRuleSpec (r : StripRule) (s : List Char) : List Char :=
  match matchIdx r s with
  | none => s
  | some i => if r.toEnd then s.take i else s.take i ++ s.drop (i + r.lit.length)

/-- Specification-side normalizer: ordered rules, first match removed per
rule, then trim. -/
def removeSubstringsSpec (description : String) : String :=
  String.mk (trimChars (stripRules.foldl (fun res r => applyRuleSpec r res)
    description.toList))

/-- The body of a webhook request (src/App.js, handleWebhook).  Absent
JSON fields are `none`. -/
structure Content where
  id : Option String
  transactions : Option (List Transaction)
deriving DecidableEq, Repr

/-- The top level of the webhook request body. -/
structure WebhookBody where
  trigger : Option String
  response : Option String
  content : Option Content
deriving DecidableEq, Repr

/-- The distinct failure reasons of handleWebhook: one WebhookException
per validation rule, plus the TypeError that JavaScript raises when a
rule dereferences an absent object. -/
inductive WebhookError
  | triggerNotUpdateTransaction
  | responseNotTransactions
  | missingContentId
  | noTransactions
  | badTransactionType
  | categoryIdAlreadySet
  | missingDescription
  | missingDestinationName
  | typeError
deriving DecidableEq, Repr

/-- JavaScript truthiness of a possibly-absent string: absent and the
empty string are falsy. -/
def truthy : Option String → Bool
  | none => false
  | some s => s != ""

/-- The synchronous part of `handleWebhook` (src/App.js): the validation
chain in source order, then `createJob` on the extracted record.  The
transaction-list rule reproduces the optional-chaining comparison
`content.transactions?.length === 0`: it only fires when the list is
present and empty; an absent list falls through to the next rule, whose
`transactions[0]` dereference raises a TypeError. -/
def handleWebhook (now : Nat) (b : WebhookBody) (s : JobList) :
    Except WebhookError (Job × JobList × List Event) :=
  if b.trigger != some "UPDATE_TRANSACTION" then
    Except.error WebhookError.triggerNotUpdateTransaction
  else if b.response != some "TRANSACTIONS" then
    Except.error WebhookError.responseNotTransactions
  else if !truthy (b.content.bind Content.id) then
    Except.error WebhookError.missingContentId
  else if (b.content.bind Content.transactions).map List.length == some 0 then
    Except.error WebhookError.noTransactions
  else
    match b.content with
    | none => Except.error WebhookError.typeError
    | some c =>
      match c.transactions with
      | none => Except.error WebhookError.typeError
      | some [] => Except.error WebhookError.typeError
      | some (t0 :: rest) =>
        if !(t0.type == some "withdrawal" || t0.type == some "deposit") then
          Except.error WebhookError.badTransactionType
        else if t0.category_id != some none then
          Except.error WebhookError.categoryIdAlreadySet
        else if !truthy t0.description then
          Except.error WebhookError.missingDescription
        else if !truthy t0.destination_name then
          Except.error WebhookError.missingDestinationName
        else
          let destinationName := t0.destination_name.getD ""
          let description := t0.description.getD ""
          let cleanedDescription := removeSubstrings description
          Except.ok (createJob now
            [("destinationName", Value.vStr destinationName),
             ("description", Value.vStr cleanedDescription),
             ("transactionId", Value.vStr (c.id.getD "")),
             ("transactions", Value.vTxs (t0 :: rest))] s)

/-- `onWebhook` (src/App.js): try the handler; an exception becomes HTTP
400 and leaves the registry untouched, success becomes HTTP 200 with the
updated registry. -/
def onWebhook (now : Nat) (b : WebhookBody) (s : JobList) : Nat × JobList :=
  match handleWebhook now b s with
  | Except.error _ => (400, s)
  | Except.ok r => (200, r.2.1)

/-- A payload satisfying every validation rule of handleWebhook,
written as one positive conjunction. -/
def validWebhook (b : WebhookBody) : Bool :=
  b.trigger == some "UPDATE_TRANSACTION" &&
  b.response == some "TRANSACTIONS" &&
  match b.content with
  | none => false
  | some c =>
    truthy c.id &&
    match c.transactions with
    | none => false
    | some [] => false
    | some (t0 :: _) =>
      (t0.type == some "withdrawal" || t0.type == some "deposit") &&
      t0.category_id == some none &&
      truthy t0.description &&
      truthy t0.destination_name

/-- The distinct failures of `setCategory` (src/App.js), one per throw
site. -/
inductive SetCategoryError
  | invalidJobOrStatus
  | fetchFailure
  | noCategoriesFound
  | categoryIdNotFound
  | assignFailure
deriving DecidableEq, Repr

/-- The external Firefly collaborator as setCategory sees it: the result
of `getCategories()` (a name-to-id mapping in insertion order, or a
thrown error), and whether the `setCategory` assign call succeeds. -/
structure FireflyEnv where
  categories : Except String (List (String × String))
  assignOk : Bool

/-- The id-to-name lookup map built in setCategory by iterating
`categoryLookup.set(id, name)` over the catalog: for a duplicated id the
last write wins. -/
def categoryLookup (entries : List (String × String)) (categoryId : String) :
    Option String :=
  (entries.reverse.find? (fun p => p.2 == categoryId)).map (fun p => p.1)

/-- `setCategory(jobId, categoryId)` (src/App.js): guard that the job
exists and is awaiting human input; fetch the catalog; resolve the id to
a name (JavaScript truthiness makes an absent or empty name the same
failure); call the external assign-category collaborator; write the
resolved name into `job.data.category`; `setJobFinished`.  The second
component of the result records whether the assign-category collaborator
was invoked. -/
def setCategory (env : FireflyEnv) (s : JobList) (jobId : Nat)
    (categoryId : String) :
    Except SetCategoryError (JobList × List Event) × Bool :=
  match getJob s jobId with
  | none => (Except.error SetCategoryError.invalidJobOrStatus, false)
  | some job =>
    if job.status != Status.human_input then
      (Except.error SetCategoryError.invalidJobOrStatus, false)
    else
      match env.categories with
      | Except.error _ => (Except.error SetCategoryError.fetchFailure, false)
      | Except.ok entries =>
        if entries.length == 0 then
          (Except.error SetCategoryError.noCategoriesFound, false)
        else
          match categoryLookup entries categoryId with
          | none => (Except.error SetCategoryError.categoryIdNotFound, false)
          | some categoryName =>
            if categoryName == "" then
              (Except.error SetCategoryError.categoryIdNotFound, false)
            else if !env.assignOk then
              (Except.error SetCategoryError.assignFailure, true)
            else
              let newData :=
                mergeData job.data [("category", Value.vStr categoryName)]
              let job' := { job with data := newData }
              let jobs1 :=
                s.jobs.map (fun j => if j.id == jobId then job' else j)
              let s1 := { s with jobs := jobs1 }
              (Except.ok (setJobFinished s1 jobId), true)

/-- One JobStore mutation, for statements quantifying over operation
sequences. -/
inductive JobOp
  | opCreate : Nat → DataBag → JobOp
  | opUpdateData : Nat → DataBag → JobOp
  | opInProgress : Nat → JobOp
  | opFinished : Nat → JobOp
  | opHumanInput : Nat → JobOp
  | opFailed : Nat → String → JobOp
deriving DecidableEq, Repr

/-- Apply one JobStore mutation. -/
def applyOp (s : JobList) : JobOp → JobList × List Event
  | JobOp.opCreate now data => let r := createJob now data s; (r.2.1, r.2.2)
  | JobOp.opUpdateData id d => updateJobData s id d
  | JobOp.opInProgress id => setJobInProgress s id
  | JobOp.opFinished id => setJobFinished s id
  | JobOp.opHumanInput id => setJobHumanInput s id
  | JobOp.opFailed id m => setJobFailed s id m

/-- `createJob` iterated over a list of data bags, as in the pairwise-
distinct-ids property. -/
def createJobs (now : Nat) : List DataBag → JobList → List Job × JobList
  | [], s => ([], s)
  | d :: ds, s =>
    let r := createJob now d s
    let rest := createJobs now ds r.2.1
    (r.1 :: rest.1, rest.2)

/-! Helper lemmas about lookups, the registry list, and merging. -/

theorem lookup_append (k : String) (l1 l2 : DataBag) :
    List.lookup k (l1 ++ l2) =
      match List.lookup k l1 with
      | some v => some v
      | none => List.lookup k l2 := by
  induction l1 with
  | nil => simp
  | cons kv rest ih =>
    obtain ⟨a, b⟩ := kv
    by_cases h : k = a
    · subst h; simp [List.lookup_cons]
    · have hba : (k == a) = false := beq_eq_false_iff_ne.mpr h
      simp [List.lookup_cons, hba, ih]

theorem lookup_filter_of_none (k : String) (old new : DataBag)
    (h : List.lookup k new = none) :
    List.lookup k (old.filter (fun kv => (List.lookup kv.1 new).isNone)) =
      List.lookup k old := by
  induction old with
  | nil => simp
  | cons kv rest ih =>
    obtain ⟨a, b⟩ := kv
    by_cases hk : k = a
    · subst hk
      simp [List.filter_cons, h, List.lookup_cons]
    · have hba : (k == a) = false := beq_eq_false_iff_ne.mpr hk
      by_cases hp : (List.lookup a new).isNone
      · simp [List.filter_cons, hp, List.lookup_cons, hba, ih]
      · simp [List.filter_cons, hp, List.lookup_cons, hba, ih]

theorem lookup_filter_of_some (k : String) (old new : DataBag) (v : Value)
    (h : List.lookup k new = some v) :
    List.lookup k (old.filter (fun kv => (List.lookup kv.1 new).isNone)) =
      none := by
  induction old with
  | nil => simp
  | cons kv rest ih =>
    obtain ⟨a, b⟩ := kv
    by_cases hk : k = a
    · subst hk
      simp [List.filter_cons, h, ih]
    · have hba : (k == a) = false := beq_eq_false_iff_ne.mpr hk
      by_cases hp : (List.lookup a new).isNone
      · simp [List.filter_cons, hp, List.lookup_cons, hba, ih]
      · simp [List.filter_cons, hp, ih]

/-- Keys present in the partial data take the new value after a merge. -/
theorem mergeData_lookup_some (old new : DataBag) (k : String) (v : Value)
    (h : List.lookup k new = some v) :
    List.lookup k (mergeData old new) = some v := by
  unfold mergeData
  rw [lookup_append, lookup_filter_of_some k old new v h]
  simp [h]

/-- Keys absent from the partial data keep their prior value after a
merge. -/
theorem mergeData_lookup_none (old new : DataBag) (k : String)
    (h : List.lookup k new = none) :
    List.lookup k (mergeData old new) = List.lookup k old := by
  unfold mergeData
  rw [lookup_append, lookup_filter_of_none k old new h]
  cases hl : List.lookup k old with
  | none => simp [h]
  | some w => simp

/-- A successful getJob returns a member of the registry carrying the
requested id. -/
theorem getJob_mem (s : JobList) (id : Nat) (j : Job)
    (h : getJob s id = some j) : j ∈ s.jobs ∧ j.id = id := by
  unfold getJob at h
  refine ⟨List.mem_of_find?_eq_some h, ?_⟩
  have := List.find?_some h
  simpa [beq_iff_eq] using this

/-- After replacing the jobs whose id matches, the first id-match found
is the replacement. -/
theorem find?_map_replace (l : List Job) (id : Nat) (j j' : Job)
    (hid : j'.id = id)
    (h : l.find? (fun x => x.id == id) = some j) :
    (l.map (fun x => if x.id == id then j' else x)).find?
      (fun x => x.id == id) = some j' := by
  induction l with
  | nil => simp at h
  | cons x xs ih =>
    by_cases hx : x.id = id
    · have hbx : (x.id == id) = true := beq_iff_eq.mpr hx
      have hbj : (j'.id == id) = true := beq_iff_eq.mpr hid
      simp only [List.map_cons, List.find?_cons]
      have hfx : (if (x.id == id) = true then j' else x) = j' := by
        rw [hbx]; simp
      rw [hfx, hbj]
    · have hbx : (x.id == id) = false := beq_eq_false_iff_ne.mpr hx
      rw [List.find?_cons, hbx] at h
      simp only [List.map_cons, List.find?_cons]
      have hfx : (if (x.id == id) = true then j' else x) = x := by
        rw [hbx]; simp
      rw [hfx, hbx]
      exact ih h

/-- In a registry with pairwise-distinct ids, two members sharing an id
are the same job. -/
theorem eq_of_mem_of_id_eq (l : List Job) (a b : Job)
    (hnd : (l.map Job.id).Nodup) (ha : a ∈ l) (hb : b ∈ l)
    (hid : a.id = b.id) : a = b := by
  induction l with
  | nil => simp at ha
  | cons x xs ih =>
    rw [List.map_cons, List.nodup_cons] at hnd
    rcases List.mem_cons.mp ha with rfl | ha'
    · rcases List.mem_cons.mp hb with rfl | hb'
      · rfl
      · exact absurd (hid ▸ List.mem_map_of_mem Job.id hb') hnd.1
    · rcases List.mem_cons.mp hb with rfl | hb'
      · exact absurd (hid ▸ List.mem_map_of_mem Job.id ha') hnd.1
      · exact ih hnd.2 ha' hb'

/-- After replacing the id-matching jobs in the registry list, getJob
returns the replacement. -/
theorem getJob_replace (s : JobList) (id : Nat) (j j' : Job)
    (hfind : getJob s id = some j) (hid : j'.id = id) :
    getJob { s with jobs := s.jobs.map (fun x => if x.id == id then j' else x) }
      id = some j' := by
  unfold getJob at hfind ⊢
  simpa using find?_map_replace s.jobs id j j' hid hfind

/-! Claim C1. -/

/-- A queued job, for exercising the status setters on a concrete
store. -/
def c1Job : Job :=
  { id := 0, created := 0, status := Status.queued, data := [],
    errorMessage := none }

/-- A one-job store holding `c1Job`. -/
def c1Store : JobList :=
  { jobs := [c1Job], nextId := 1 }

/-- C1, counterexample: the claim says no operation sequence moves a job
directly from queued to finished without passing through in_progress,
but a single `setJobFinished` on a queued job does exactly that — the
setters of src/JobList.js check only that the id exists, never the
current status. -/
theorem c1_counterexample :
    getJob c1Store 0 = some c1Job ∧ c1Job.status = Status.queued ∧
    getJob (setJobFinished c1Store 0).1 0 =
      some { c1Job with status := Status.finished } := by
  decide

/-- C1 (amended): JobStore status transitions are guarded only on job
existence, not on the current status: when the id is unknown each setter
(and updateJobData) is a no-op that leaves the store unchanged and emits
nothing, and whenever the id exists each setter rewrites the status
unconditionally to its target (so a job can move directly from queued to
finished, and out of the terminal statuses finished and failed), while
updateJobData changes data but never the status. -/
theorem c1_amended (s : JobList) (id : Nat) :
    (getJob s id = none →
      setJobInProgress s id = (s, []) ∧
      setJobFinished s id = (s, []) ∧
      setJobHumanInput s id = (s, []) ∧
      (∀ m, setJobFailed s id m = (s, [])) ∧
      (∀ d, updateJobData s id d = (s, []))) ∧
    (∀ j, getJob s id = some j →
      getJob (setJobInProgress s id).1 id =
        some { j with status := Status.in_progress } ∧
      getJob (setJobFinished s id).1 id =
        some { j with status := Status.finished } ∧
      getJob (setJobHumanInput s id).1 id =
        some { j with status := Status.human_input } ∧
      (∀ m, getJob (setJobFailed s id m).1 id =
        some { j with status := Status.failed, errorMessage := some m }) ∧
      (∀ d, getJob (updateJobData s id d).1 id =
        some { j with data := mergeData j.data d })) := by
  constructor
  · intro hn
    refine ⟨?_, ?_, ?_, fun m => ?_, fun d => ?_⟩
    · simp [setJobInProgress, hn]
    · simp [setJobFinished, hn]
    · simp [setJobHumanInput, hn]
    · simp [setJobFailed, hn]
    · simp [updateJobData, hn]
  · intro j hj
    have hjid : j.id = id := (getJob_mem s id j hj).2
    refine ⟨?_, ?_, ?_, fun m => ?_, fun d => ?_⟩
    · have := getJob_replace s id j { j with status := Status.in_progress }
        hj (by simpa using hjid)
      simpa [setJobInProgress, hj] using this
    · have := getJob_replace s id j { j with status := Status.finished }
        hj (by simpa using hjid)
      simpa [setJobFinished, hj] using this
    · have := getJob_replace s id j { j with status := Status.human_input }
        hj (by simpa using hjid)
      simpa [setJobHumanInput, hj] using this
    · have := getJob_replace s id j
        { j with status := Status.failed, errorMessage := some m }
        hj (by simpa using hjid)
      simpa [setJobFailed, hj] using this
    · have := getJob_replace s id j { j with data := mergeData j.data d }
        hj (by simpa using hjid)
      simpa [updateJobData, hj] using this

/-- C1 (amended), witness: the amended statement evaluated on the
concrete one-job store, on the unknown id 5 (no-op, no event) and on the
existing id 0 (unconditional transition). -/
theorem c1_amended_witness :
    getJob c1Store 5 = none ∧
    setJobFinished c1Store 5 = (c1Store, []) ∧
    getJob c1Store 0 = some c1Job ∧
    getJob (setJobInProgress c1Store 0).1 0 =
      some { c1Job with status := Status.in_progress } :=
  ⟨by decide,
   ((c1_amended c1Store 5).1 (by decide)).2.1,
   by decide,
   ((c1_amended c1Store 0).2 c1Job (by decide)).1⟩

/-! Claim C2. -/

/-- An in-progress job, for exercising setJobFailed on a concrete
store. -/
def c2Job : Job :=
  { id := 0, created := 0, status := Status.in_progress, data := [],
    errorMessage := none }

/-- A one-job store holding `c2Job`. -/
def c2Store : JobList :=
  { jobs := [c2Job], nextId := 1 }

/-- C2, counterexample: the claim's cited `setJobFailed` of
src/unnamed/part_002 records the failure but emits no `job updated`
event at all, refuting the claim's event-emission conjunct for that
variant. -/
theorem c2_counterexample :
    getJob c2Store 0 = some c2Job ∧
    getJob (setJobFailedVariant c2Store 0 "boom").1 0 =
      some { c2Job with
               status := Status.failed,
               errorMessage := some "boom" } ∧
    (setJobFailedVariant c2Store 0 "boom").2 = [] := by
  decide

/-- C2 (amended): in the JobList actually imported by App
(src/JobList.js), setJobFailed on an existing job with a non-empty
message leaves the job failed and carrying that non-empty errorMessage
and emits exactly one `job updated` event with the job and the full
jobs snapshot; the older variant kept at src/unnamed/part_002 makes the
same state change but emits no event. -/
theorem c2_amended (s : JobList) (id : Nat) (msg : String) (j : Job)
    (hj : getJob s id = some j) (hmsg : msg ≠ "") :
    getJob (setJobFailed s id msg).1 id =
      some { j with status := Status.failed, errorMessage := some msg } ∧
    ({ j with
         status := Status.failed,
         errorMessage := some msg }).errorMessage = some msg ∧ msg ≠ "" ∧
    (setJobFailed s id msg).2 =
      [Event.jobUpdated
        { j with status := Status.failed, errorMessage := some msg }
        (setJobFailed s id msg).1.jobs] ∧
    (setJobFailedVariant s id msg).1 = (setJobFailed s id msg).1 ∧
    (setJobFailedVariant s id msg).2 = [] := by
  have hjid : j.id = id := (getJob_mem s id j hj).2
  refine ⟨?_, rfl, hmsg, ?_, ?_, ?_⟩
  · have := getJob_replace s id j
      { j with status := Status.failed, errorMessage := some msg }
      hj (by simpa using hjid)
    simpa [setJobFailed, hj] using this
  · simp [setJobFailed, hj]
  · simp [setJobFailed, setJobFailedVariant, hj]
  · simp [setJobFailedVariant, hj]

/-- C2 (amended), witness: the amended statement evaluated on the
concrete one-job store with message "boom". -/
theorem c2_amended_witness :
    getJob c2Store 0 = some c2Job ∧
    getJob (setJobFailed c2Store 0 "boom").1 0 =
      some { c2Job with
               status := Status.failed,
               errorMessage := some "boom" } :=
  ⟨by decide,
   (c2_amended c2Store 0 "boom" c2Job (by decide) (by decide)).1⟩

/-! Claim C10. -/

/-- A job with a populated data bag, for exercising updateJobData. -/
def c10Job : Job :=
  { id := 0, created := 0, status := Status.queued,
    data := [("destinationName", Value.vStr "Coffee Shop"),
             ("description", Value.vStr "COFFEE SHOP")],
    errorMessage := none }

/-- A one-job store holding `c10Job`. -/
def c10Store : JobList :=
  { jobs := [c10Job], nextId := 1 }

/-- A partial data record overriding one key and adding another. -/
def c10Partial : DataBag :=
  [("description", Value.vStr "NEW"), ("category", Value.vStr "Food")]

/-- C10: updateJobData merges the partial data into the existing job's
data bag — keys of the prior bag absent from the partial keep their
prior value, keys present in the partial take the new value — and emits
`job updated` with the job and the full snapshot; on an unknown id it is
a no-op that emits nothing. -/
theorem c10_updateJobData (s : JobList) (id : Nat) (d : DataBag) :
    (getJob s id = none → updateJobData s id d = (s, [])) ∧
    ∀ j, getJob s id = some j →
      getJob (updateJobData s id d).1 id =
        some { j with data := mergeData j.data d } ∧
      (updateJobData s id d).2 =
        [Event.jobUpdated { j with data := mergeData j.data d }
          (updateJobData s id d).1.jobs] ∧
      (∀ k v, List.lookup k d = some v →
        List.lookup k (mergeData j.data d) = some v) ∧
      (∀ k, List.lookup k d = none →
        List.lookup k (mergeData j.data d) = List.lookup k j.data) := by
  constructor
  · intro h
    simp [updateJobData, h]
  · intro j hj
    have hjid : j.id = id := (getJob_mem s id j hj).2
    refine ⟨?_, ?_, ?_, ?_⟩
    · have := getJob_replace s id j { j with data := mergeData j.data d }
        hj (by simpa using hjid)
      simpa [updateJobData, hj] using this
    · simp [updateJobData, hj]
    · intro k v hk
      exact mergeData_lookup_some j.data d k v hk
    · intro k hk
      exact mergeData_lookup_none j.data d k hk

/-- C10, witness: updateJobData evaluated on the concrete store,
overriding `description`, adding `category`, keeping
`destinationName`. -/
theorem c10_witness :
    getJob c10Store 0 = some c10Job ∧
    getJob (updateJobData c10Store 0 c10Partial).1 0 =
      some { c10Job with data := mergeData c10Job.data c10Partial } ∧
    List.lookup "destinationName" (mergeData c10Job.data c10Partial) =
      some (Value.vStr "Coffee Shop") ∧
    List.lookup "description" (mergeData c10Job.data c10Partial) =
      some (Value.vStr "NEW") :=
  ⟨by decide,
   ((c10_updateJobData c10Store 0 c10Partial).2 c10Job (by decide)).1,
   by decide, by decide⟩

/-! Claim C3: the cleanup sweep. -/

/-- The Bool deletion condition, spelled out. -/
theorem shouldDelete_iff (now : Nat) (j : Job) :
    shouldDelete now j = true ↔
      (j.status = Status.finished ∨ j.status = Status.failed) ∧
        24 < now - j.created := by
  simp [shouldDelete, Bool.and_eq_true, Bool.or_eq_true, beq_iff_eq,
    decide_eq_true_iff]

/-- The sweep step on a job meeting the deletion condition. -/
theorem cleanupStep_true (now : Nat) (cur : List Job) (evs : List Event)
    (k : Job) (h : shouldDelete now k = true) :
    cleanupStep now (cur, evs) k =
      (cur.filter (fun j => !(j.id == k.id)),
       evs ++ [Event.jobDeleted k.id
         (cur.filter (fun j => !(j.id == k.id)))]) := by
  simp [cleanupStep, h]

/-- The sweep step on a job missing the deletion condition. -/
theorem cleanupStep_false (now : Nat) (cur : List Job) (evs : List Event)
    (k : Job) (h : shouldDelete now k = false) :
    cleanupStep now (cur, evs) k = (cur, evs) := by
  simp [cleanupStep, h]

/-- Events already emitted survive the rest of the sweep. -/
theorem cleanup_events_mono (now : Nat) (scan : List Job) :
    ∀ (cur : List Job) (evs : List Event) (e : Event), e ∈ evs →
      e ∈ (scan.foldl (cleanupStep now) (cur, evs)).2 := by
  induction scan with
  | nil => intro cur evs e he; simpa using he
  | cons k ks ih =>
    intro cur evs e he
    rw [List.foldl_cons]
    by_cases hk : shouldDelete now k = true
    · rw [cleanupStep_true now cur evs k hk]
      exact ih _ _ e (List.mem_append.mpr (Or.inl he))
    · rw [cleanupStep_false now cur evs k (by simpa using hk)]
      exact ih _ _ e he

/-- After the sweep, the surviving jobs are exactly the current jobs
whose id is not the id of a scanned job meeting the deletion
condition. -/
theorem cleanup_jobs_eq (now : Nat) (scan : List Job) :
    ∀ (cur : List Job) (evs : List Event),
      (scan.foldl (cleanupStep now) (cur, evs)).1 =
        cur.filter (fun j =>
          !(scan.any (fun k => shouldDelete now k && k.id == j.id))) := by
  induction scan with
  | nil => intro cur evs; simp
  | cons k ks ih =>
    intro cur evs
    rw [List.foldl_cons]
    by_cases hk : shouldDelete now k = true
    · rw [cleanupStep_true now cur evs k hk]
      rw [ih, List.filter_filter]
      refine List.filter_congr ?_
      intro j _
      cases h1 : (k.id == j.id) <;>
        cases h2 : ks.any (fun x => shouldDelete now x && x.id == j.id)
      · cases h3 : (j.id == k.id)
        · simp [List.any_cons, hk, h1, h2, h3]
        · rw [beq_eq_false_iff_ne] at h1
          rw [beq_iff_eq] at h3
          exact absurd h3.symm h1
      · simp [List.any_cons, hk, h1, h2]
      · rw [beq_iff_eq] at h1
        have h3 : (j.id == k.id) = true := beq_iff_eq.mpr h1.symm
        simp [List.any_cons, hk, h1, h2, h3]
      · simp [List.any_cons, hk, h1, h2]
    · have hkf : shouldDelete now k = false := by
        simpa using hk
      rw [cleanupStep_false now cur evs k hkf]
      rw [ih]
      refine List.filter_congr ?_
      intro j _
      simp [List.any_cons, hkf]

/-- Every scanned job meeting the deletion condition gets a
`job deleted` event whose snapshot no longer contains its id. -/
theorem cleanup_event_emitted (now : Nat) (scan : List Job) :
    ∀ (cur : List Job) (evs : List Event) (k : Job), k ∈ scan →
      shouldDelete now k = true →
      ∃ snap, Event.jobDeleted k.id snap ∈
          (scan.foldl (cleanupStep now) (cur, evs)).2 ∧
        ∀ j ∈ snap, j.id ≠ k.id := by
  induction scan with
  | nil => intro _ _ _ h; simp at h
  | cons x xs ih =>
    intro cur evs k hk hdel
    rw [List.foldl_cons]
    rcases List.mem_cons.mp hk with rfl | hk'
    · rw [cleanupStep_true now cur evs k hdel]
      refine ⟨cur.filter (fun j => !(j.id == k.id)), ?_, ?_⟩
      · exact cleanup_events_mono now xs _ _ _
          (List.mem_append.mpr (Or.inr (List.mem_singleton_self _)))
      · intro j hj
        have := (List.mem_filter.mp hj).2
        simpa [beq_iff_eq] using this
    · exact ih _ _ k hk' hdel

/-- C3: one run of the cleanup sweep deletes a job exactly when its
status is finished or failed and its age exceeds the retention
threshold (the 24-millisecond literal of src/JobList.js); a deleted job
triggers a `job deleted` event whose remaining-jobs snapshot no longer
holds its id, while a job missing the condition — in particular any
queued, in_progress or human_input job, however old — survives the
sweep. -/
theorem c3_cleanup (now : Nat) (s : JobList) (j : Job)
    (hnd : (s.jobs.map Job.id).Nodup) (hj : j ∈ s.jobs) :
    (((j.status = Status.finished ∨ j.status = Status.failed) ∧
        24 < now - j.created) →
      getJob (cleanupOldJobs now s).1 j.id = none ∧
      ∃ snap, Event.jobDeleted j.id snap ∈ (cleanupOldJobs now s).2 ∧
        ∀ x ∈ snap, x.id ≠ j.id) ∧
    (¬((j.status = Status.finished ∨ j.status = Status.failed) ∧
        24 < now - j.created) →
      j ∈ (cleanupOldJobs now s).1.jobs) := by
  constructor
  · intro hcond
    have hdel : shouldDelete now j = true := (shouldDelete_iff now j).mpr hcond
    constructor
    · unfold cleanupOldJobs getJob
      simp only
      rw [cleanup_jobs_eq]
      rw [List.find?_eq_none]
      intro x hx
      have hmem := List.mem_filter.mp hx
      intro hxj
      have hxid : x.id = j.id := by simpa [beq_iff_eq] using hxj
      have hany := hmem.2
      rw [Bool.not_eq_true'] at hany
      rw [List.any_eq_false] at hany
      exact hany j hj (by simp [hdel, beq_iff_eq, hxid])
    · have := cleanup_event_emitted now s.jobs s.jobs [] j hj hdel
      simpa [cleanupOldJobs] using this
  · intro hcond
    have hdel : shouldDelete now j = false := by
      rw [← Bool.not_eq_true]
      intro h
      exact hcond ((shouldDelete_iff now j).mp h)
    unfold cleanupOldJobs
    simp only
    rw [cleanup_jobs_eq]
    rw [List.mem_filter]
    refine ⟨hj, ?_⟩
    rw [Bool.not_eq_eq_eq_not]
    simp only [Bool.not_true]
    rw [List.any_eq_false]
    intro k hk
    intro hkj
    rw [Bool.and_eq_true] at hkj
    have hkid : k.id = j.id := by simpa [beq_iff_eq] using hkj.2
    have : k = j := eq_of_mem_of_id_eq s.jobs k j hnd hk hj hkid
    rw [this] at hkj
    rw [hkj.1] at hdel
    simp at hdel

/-- An old finished job, eligible for cleanup. -/
def c3JobOld : Job :=
  { id := 0, created := 0, status := Status.finished, data := [],
    errorMessage := none }

/-- A young queued job, never eligible for cleanup. -/
def c3JobYoung : Job :=
  { id := 1, created := 90, status := Status.queued, data := [],
    errorMessage := none }

/-- A two-job store for the cleanup sweep. -/
def c3Store : JobList :=
  { jobs := [c3JobOld, c3JobYoung], nextId := 2 }

/-- C3, witness: at time 100 the sweep deletes the old finished job and
keeps the young queued one. -/
theorem c3_witness :
    getJob (cleanupOldJobs 100 c3Store).1 0 = none ∧
    c3JobYoung ∈ (cleanupOldJobs 100 c3Store).1.jobs ∧
    (∃ snap, Event.jobDeleted 0 snap ∈ (cleanupOldJobs 100 c3Store).2 ∧
      ∀ x ∈ snap, x.id ≠ 0) :=
  ⟨((c3_cleanup 100 c3Store c3JobOld (by decide) (by decide)).1
      (by decide)).1,
   (c3_cleanup 100 c3Store c3JobYoung (by decide) (by decide)).2
      (by decide),
   ((c3_cleanup 100 c3Store c3JobOld (by decide) (by decide)).1
      (by decide)).2⟩

/-! Claim C9: createJob id freshness and timestamp immutability. -/

/-- Every job produced by a run of sequential createJob calls has an id
at least the starting fresh-id counter. -/
theorem createJobs_id_lb (now : Nat) :
    ∀ (ds : List DataBag) (s : JobList) (j : Job),
      j ∈ (createJobs now ds s).1 → s.nextId ≤ j.id := by
  intro ds
  induction ds with
  | nil => intro s j hj; simp [createJobs] at hj
  | cons d rest ih =>
    intro s j hj
    simp only [createJobs, createJob] at hj
    rcases List.mem_cons.mp hj with rfl | hj'
    · exact Nat.le_refl _
    · exact Nat.le_of_succ_le (ih _ j hj')

/-- Replacing the id-matching job by one with the same id and creation
time preserves, for every prior member, a member with its id and
creation time. -/
theorem mem_replace_preserves (l : List Job) (id0 : Nat) (found job' : Job)
    (hnd : (l.map Job.id).Nodup)
    (hfind : l.find? (fun x => x.id == id0) = some found)
    (hid : job'.id = found.id) (hcr : job'.created = found.created)
    (j : Job) (hj : j ∈ l) :
    ∃ j' ∈ l.map (fun x => if x.id == id0 then job' else x),
      j'.id = j.id ∧ j'.created = j.created := by
  have hfmem : found ∈ l := List.mem_of_find?_eq_some hfind
  have hfid : found.id = id0 := by
    simpa [beq_iff_eq] using List.find?_some hfind
  by_cases hj0 : j.id = id0
  · have hfj : found = j :=
      eq_of_mem_of_id_eq l found j hnd hfmem hj (by rw [hfid, hj0])
    refine ⟨job', List.mem_map.mpr ⟨j, hj, ?_⟩, ?_, ?_⟩
    · simp [beq_iff_eq, hj0]
    · rw [hid, hfj]
    · rw [hcr, hfj]
  · refine ⟨j, List.mem_map.mpr ⟨j, hj, ?_⟩, rfl, rfl⟩
    simp [beq_eq_false_iff_ne.mpr hj0]

/-- C9: N sequential createJob calls yield pairwise-distinct ids (the
uuid collision-freedom contract, modelled by the fresh counter), every
created job starts queued with the creation timestamp, and no JobStore
mutation ever changes the id or creation timestamp of a stored job. -/
theorem c9_createJobs (now : Nat) (datas : List DataBag) (s : JobList) :
    ((createJobs now datas s).1.map Job.id).Nodup ∧
    (∀ j ∈ (createJobs now datas s).1,
      j.status = Status.queued ∧ j.created = now) ∧
    (∀ (t : JobList) (op : JobOp) (j : Job),
      (t.jobs.map Job.id).Nodup → j ∈ t.jobs →
      ∃ j' ∈ (applyOp t op).1.jobs,
        j'.id = j.id ∧ j'.created = j.created) := by
  refine ⟨?_, ?_, ?_⟩
  · induction datas generalizing s with
    | nil => simp [createJobs]
    | cons d rest ih =>
      simp only [createJobs, createJob, List.map_cons, List.nodup_cons]
      refine ⟨?_, ih _⟩
      intro hmem
      rcases List.mem_map.mp hmem with ⟨j, hj, hjid⟩
      have := createJobs_id_lb now rest _ j hj
      simp only at this
      omega
  · induction datas generalizing s with
    | nil => intro j hj; simp [createJobs] at hj
    | cons d rest ih =>
      intro j hj
      simp only [createJobs, createJob] at hj
      rcases List.mem_cons.mp hj with rfl | hj'
      · exact ⟨rfl, rfl⟩
      · exact ih _ j hj'
  · intro t op j hnd hj
    cases op with
    | opCreate n d =>
      exact ⟨j, by simp [applyOp, createJob, List.mem_append, hj], rfl, rfl⟩
    | opUpdateData id0 d =>
      cases hg : getJob t id0 with
      | none =>
        exact ⟨j, by simp [applyOp, updateJobData, hg, hj], rfl, rfl⟩
      | some found =>
        have := mem_replace_preserves t.jobs id0 found
          { found with data := mergeData found.data d } hnd hg rfl rfl j hj
        simpa [applyOp, updateJobData, hg] using this
    | opInProgress id0 =>
      cases hg : getJob t id0 with
      | none =>
        exact ⟨j, by simp [applyOp, setJobInProgress, hg, hj], rfl, rfl⟩
      | some found =>
        have := mem_replace_preserves t.jobs id0 found
          { found with status := Status.in_progress } hnd hg rfl rfl j hj
        simpa [applyOp, setJobInProgress, hg] using this
    | opFinished id0 =>
      cases hg : getJob t id0 with
      | none =>
        exact ⟨j, by simp [applyOp, setJobFinished, hg, hj], rfl, rfl⟩
      | some found =>
        have := mem_replace_preserves t.jobs id0 found
          { found with status := Status.finished } hnd hg rfl rfl j hj
        simpa [applyOp, setJobFinished, hg] using this
    | opHumanInput id0 =>
      cases hg : getJob t id0 with
      | none =>
        exact ⟨j, by simp [applyOp, setJobHumanInput, hg, hj], rfl, rfl⟩
      | some found =>
        have := mem_replace_preserves t.jobs id0 found
          { found with status := Status.human_input } hnd hg rfl rfl j hj
        simpa [applyOp, setJobHumanInput, hg] using this
    | opFailed id0 m =>
      cases hg : getJob t id0 with
      | none =>
        exact ⟨j, by simp [applyOp, setJobFailed, hg, hj], rfl, rfl⟩
      | some found =>
        have := mem_replace_preserves t.jobs id0 found
          { found with status := Status.failed, errorMessage := some m }
          hnd hg rfl rfl j hj
        simpa [applyOp, setJobFailed, hg] using this

/-- A queued job created at time 5, for the C9 witness. -/
def c9Job : Job :=
  { id := 0, created := 5, status := Status.queued, data := [],
    errorMessage := none }

/-- A one-job store holding `c9Job`. -/
def c9Store : JobList :=
  { jobs := [c9Job], nextId := 1 }

/-- C9, witness: two sequential createJob calls on the empty store give
distinct queued jobs timestamped at creation, and setJobFinished keeps
id and creation time of the stored job. -/
theorem c9_witness :
    ((createJobs 7 [[], []] { jobs := [], nextId := 0 }).1.map Job.id).Nodup ∧
    (∀ j ∈ (createJobs 7 [[], []] { jobs := [], nextId := 0 }).1,
      j.status = Status.queued ∧ j.created = 7) ∧
    ∃ j' ∈ (applyOp c9Store (JobOp.opFinished 0)).1.jobs,
      j'.id = c9Job.id ∧ j'.created = c9Job.created :=
  ⟨(c9_createJobs 7 [[], []] { jobs := [], nextId := 0 }).1,
   (c9_createJobs 7 [[], []] { jobs := [], nextId := 0 }).2.1,
   (c9_createJobs 7 [[], []] { jobs := [], nextId := 0 }).2.2
     c9Store (JobOp.opFinished 0) c9Job (by decide) (by decide)⟩

/-! Claims C4 and C6: webhook validation. -/

/-- A payload that gets past the whole validation chain satisfies every
positive validation condition. -/
theorem handleWebhook_ok_valid (now : Nat) (b : WebhookBody) (s : JobList)
    (r : Job × JobList × List Event)
    (h : handleWebhook now b s = Except.ok r) :
    validWebhook b = true := by
  unfold handleWebhook at h
  split_ifs at h with h1 h2 h3 h4
  · split at h
    next => exact Except.noConfusion h
    next c hc =>
      split at h
      next => exact Except.noConfusion h
      next => exact Except.noConfusion h
      next t0 rest ht =>
        split_ifs at h with h5 h6 h7 h8
        · have e1 : b.trigger = some "UPDATE_TRANSACTION" := by
            rw [bne_iff_ne] at h1
            exact not_not.mp h1
          have e2 : b.response = some "TRANSACTIONS" := by
            rw [bne_iff_ne] at h2
            exact not_not.mp h2
          have e3 : truthy (b.content.bind Content.id) = true := by
            simpa using h3
          have e5 : (t0.type == some "withdrawal" ||
              t0.type == some "deposit") = true := by
            cases hx : (t0.type == some "withdrawal" ||
                t0.type == some "deposit")
            · exact absurd (by rw [hx]; rfl) h5
            · rfl
          have e6 : t0.category_id = some none := by
            rw [bne_iff_ne] at h6
            exact not_not.mp h6
          have e7 : truthy t0.description = true := by
            simpa using h7
          have e8 : truthy t0.destination_name = true := by
            simpa using h8
          rw [hc] at e3
          simp only [Option.some_bind] at e3
          simp [validWebhook, hc, ht, e1, e2, e3, e5, e6, e7, e8]

/-- C6: a webhook payload violating any validation rule produces an HTTP
400 response and leaves the registry unchanged — no job is created on
validation failure. -/
theorem c6_invalid_webhook (now : Nat) (b : WebhookBody) (s : JobList)
    (h : validWebhook b = false) :
    onWebhook now b s = (400, s) := by
  cases hh : handleWebhook now b s with
  | error e => simp [onWebhook, hh]
  | ok r =>
    have := handleWebhook_ok_valid now b s r hh
    rw [h] at this
    exact Bool.noConfusion this

/-- A webhook payload with the wrong trigger marker. -/
def c6Body : WebhookBody :=
  { trigger := some "OTHER", response := some "TRANSACTIONS",
    content := some { id := some "42", transactions := some [] } }

/-- C6, witness: the wrong-trigger payload is rejected with 400 and the
empty registry stays empty. -/
theorem c6_witness :
    validWebhook c6Body = false ∧
    onWebhook 0 c6Body { jobs := [], nextId := 0 } =
      (400, { jobs := [], nextId := 0 }) :=
  ⟨by decide, c6_invalid_webhook 0 c6Body { jobs := [], nextId := 0 }
    (by decide)⟩

/-- The content of a payload whose transaction list is absent. -/
def c4AbsentContent : Content :=
  { id := some "42", transactions := none }

/-- A payload passing trigger, response and content-id checks whose
transaction list is absent. -/
def c4AbsentBody : WebhookBody :=
  { trigger := some "UPDATE_TRANSACTION", response := some "TRANSACTIONS",
    content := some c4AbsentContent }

/-- The content of a payload whose transaction list is present and
empty. -/
def c4EmptyContent : Content :=
  { id := some "42", transactions := some [] }

/-- A payload passing trigger, response and content-id checks whose
transaction list is present and empty. -/
def c4EmptyBody : WebhookBody :=
  { trigger := some "UPDATE_TRANSACTION", response := some "TRANSACTIONS",
    content := some c4EmptyContent }

/-- C4, counterexample: on a payload whose transaction list is absent
(not empty), the optional-chaining check `transactions?.length === 0`
does not fire, so validation does not fail with the distinct
no-transactions rule; it proceeds to the transaction-type rule and dies
there with the generic TypeError. -/
theorem c4_counterexample :
    handleWebhook 0 c4AbsentBody { jobs := [], nextId := 0 } =
      Except.error WebhookError.typeError ∧
    WebhookError.typeError ≠ WebhookError.noTransactions := by
  exact ⟨rfl, by decide⟩

/-- C4 (amended): for a payload passing the trigger, response and
content-id checks, a present-and-empty transaction list fails fast with
the distinct no-transactions ValidationError, while an absent
transaction list instead falls through that rule and fails at the next
rule with a generic TypeError; in both cases the caller gets HTTP 400
and no job is created, the registry being returned unchanged. -/
theorem c4_amended (now : Nat) (b : WebhookBody) (c : Content) (s : JobList)
    (h1 : b.trigger = some "UPDATE_TRANSACTION")
    (h2 : b.response = some "TRANSACTIONS")
    (hc : b.content = some c) (hid : truthy c.id = true) :
    (c.transactions = some [] →
      handleWebhook now b s = Except.error WebhookError.noTransactions ∧
      onWebhook now b s = (400, s)) ∧
    (c.transactions = none →
      handleWebhook now b s = Except.error WebhookError.typeError ∧
      onWebhook now b s = (400, s)) := by
  constructor
  · intro ht
    have he : handleWebhook now b s =
        Except.error WebhookError.noTransactions := by
      simp [handleWebhook, h1, h2, hc, ht, hid]
    exact ⟨he, by simp [onWebhook, he]⟩
  · intro ht
    have he : handleWebhook now b s =
        Except.error WebhookError.typeError := by
      simp [handleWebhook, h1, h2, hc, ht, hid]
    exact ⟨he, by simp [onWebhook, he]⟩

/-- C4 (amended), witness: the two concrete payloads evaluated through
the amended statement. -/
theorem c4_witness :
    (handleWebhook 0 c4EmptyBody { jobs := [], nextId := 0 } =
      Except.error WebhookError.noTransactions ∧
     onWebhook 0 c4EmptyBody { jobs := [], nextId := 0 } =
      (400, { jobs := [], nextId := 0 })) ∧
    (handleWebhook 0 c4AbsentBody { jobs := [], nextId := 0 } =
      Except.error WebhookError.typeError ∧
     onWebhook 0 c4AbsentBody { jobs := [], nextId := 0 } =
      (400, { jobs := [], nextId := 0 })) :=
  ⟨(c4_amended 0 c4EmptyBody c4EmptyContent { jobs := [], nextId := 0 }
      rfl rfl rfl (by decide)).1 rfl,
   (c4_amended 0 c4AbsentBody c4AbsentContent { jobs := [], nextId := 0 }
      rfl rfl rfl (by decide)).2 rfl⟩

/-! Claims C7 and C8: the human-input resolver. -/

/-- C7: setCategory on a missing job, or on a job not awaiting human
input, fails with the invalid-job error before touching anything: no new
registry state is produced, no event is emitted, and the external
assign-category collaborator is not invoked. -/
theorem c7_setCategory_guard (env : FireflyEnv) (s : JobList) (jobId : Nat)
    (categoryId : String)
    (h : getJob s jobId = none ∨
      ∃ j, getJob s jobId = some j ∧ j.status ≠ Status.human_input) :
    setCategory env s jobId categoryId =
      (Except.error SetCategoryError.invalidJobOrStatus, false) := by
  rcases h with h | ⟨j, hj, hst⟩
  · simp [setCategory, h]
  · have hb : (j.status != Status.human_input) = true := bne_iff_ne.mpr hst
    simp [setCategory, hj, hb]

/-- A Firefly environment with a one-entry catalog and a working assign
call. -/
def c7Env : FireflyEnv :=
  { categories := Except.ok [("Food", "1")], assignOk := true }

/-- A store whose only job is queued, hence not awaiting human input. -/
def c7Store : JobList :=
  { jobs := [{ id := 0, created := 0, status := Status.queued, data := [],
               errorMessage := none }], nextId := 1 }

/-- C7, witness: resolving an unknown id and resolving a non-human_input
job both fail with the invalid-job error. -/
theorem c7_witness :
    setCategory c7Env c7Store 5 "1" =
      (Except.error SetCategoryError.invalidJobOrStatus, false) ∧
    setCategory c7Env c7Store 0 "1" =
      (Except.error SetCategoryError.invalidJobOrStatus, false) :=
  ⟨c7_setCategory_guard c7Env c7Store 5 "1" (Or.inl (by decide)),
   c7_setCategory_guard c7Env c7Store 0 "1"
     (Or.inr ⟨{ id := 0, created := 0, status := Status.queued, data := [],
                errorMessage := none }, by decide, by decide⟩)⟩

/-- setJobFinished on a store whose job is known, spelled out. -/
theorem setJobFinished_eq (s : JobList) (id : Nat) (j : Job)
    (hj : getJob s id = some j) :
    setJobFinished s id =
      ({ s with
          jobs := s.jobs.map (fun x =>
            if x.id == id then { j with status := Status.finished }
            else x) },
       [Event.jobUpdated { j with status := Status.finished }
          (s.jobs.map (fun x =>
            if x.id == id then { j with status := Status.finished }
            else x))]) := by
  simp [setJobFinished, hj]

/-- C8: a successful human-input resolution on a job awaiting human
input, with a category id resolving in the fetched catalog, invokes the
external assign-category collaborator, merges the resolved category name
into the job's data (all other keys keeping their prior values), sets
the job's status to finished, and emits the corresponding `job updated`
event. -/
theorem c8_setCategory_success (env : FireflyEnv) (s : JobList)
    (jobId : Nat) (categoryId : String) (j : Job) (s' : JobList)
    (evs : List Event) (invoked : Bool)
    (hj : getJob s jobId = some j) (hst : j.status = Status.human_input)
    (hok : setCategory env s jobId categoryId =
      (Except.ok (s', evs), invoked)) :
    invoked = true ∧
    ∃ entries name, env.categories = Except.ok entries ∧
      categoryLookup entries categoryId = some name ∧
      getJob s' jobId =
        some { j with
               status := Status.finished,
               data := mergeData j.data [("category", Value.vStr name)] } ∧
      List.lookup "category"
        (mergeData j.data [("category", Value.vStr name)]) =
          some (Value.vStr name) ∧
      (∀ k, k ≠ "category" →
        List.lookup k (mergeData j.data [("category", Value.vStr name)]) =
          List.lookup k j.data) ∧
      evs = [Event.jobUpdated
        { j with
          status := Status.finished,
          data := mergeData j.data [("category", Value.vStr name)] }
        s'.jobs] := by
  have hjid : j.id = jobId := (getJob_mem s jobId j hj).2
  unfold setCategory at hok
  split at hok
  · simp at hok
  next job hjob =>
    have hjj : job = j := Option.some.inj (hjob.symm.trans hj)
    subst hjj
    split at hok
    · simp at hok
    split at hok
    · simp at hok
    next entries hcat =>
      split at hok
      · simp at hok
      split at hok
      · simp at hok
      next name hlook =>
        split at hok
        · simp at hok
        split at hok
        · simp at hok
        · simp only [Prod.mk.injEq, Except.ok.injEq] at hok
          obtain ⟨hfin, hinv⟩ := hok
          have hg1 : getJob
              { s with
                jobs := s.jobs.map (fun x =>
                  if x.id == jobId then
                    { job with
                      data := mergeData job.data
                        [("category", Value.vStr name)] }
                  else x) } jobId =
              some { job with
                     data := mergeData job.data
                       [("category", Value.vStr name)] } :=
            getJob_replace s jobId job _ hj (by simpa using hjid)
          rw [setJobFinished_eq _ jobId _ hg1] at hfin
          rw [Prod.mk.injEq] at hfin
          obtain ⟨hs', hevs⟩ := hfin
          refine ⟨hinv.symm, entries, name, hcat, hlook, ?_, ?_, ?_, ?_⟩
          · rw [← hs']
            exact getJob_replace _ jobId
              { job with
                data := mergeData job.data
                  [("category", Value.vStr name)] }
              _ hg1 (by simpa using hjid)
          · exact mergeData_lookup_some job.data _ "category"
              (Value.vStr name) (by simp)
          · intro k hk
            refine mergeData_lookup_none job.data _ k ?_
            simp [List.lookup_cons, beq_eq_false_iff_ne.mpr hk]
          · rw [← hevs, ← hs']

/-- A job awaiting human input, carrying its transaction id. -/
def c8Job : Job :=
  { id := 0, created := 0, status := Status.human_input,
    data := [("transactionId", Value.vStr "42")], errorMessage := none }

/-- A one-job store holding `c8Job`. -/
def c8Store : JobList :=
  { jobs := [c8Job], nextId := 1 }

/-- A Firefly environment whose catalog maps the name to id "7". -/
def c8Env : FireflyEnv :=
  { categories := Except.ok [("Food and Drink", "7")], assignOk := true }

/-- The job after a successful resolution with category id "7". -/
def c8FinalJob : Job :=
  { id := 0, created := 0, status := Status.finished,
    data := [("transactionId", Value.vStr "42"),
             ("category", Value.vStr "Food and Drink")],
    errorMessage := none }

/-- The store after the successful resolution. -/
def c8FinalStore : JobList :=
  { jobs := [c8FinalJob], nextId := 1 }

/-- The events of the successful resolution. -/
def c8Evs : List Event :=
  [Event.jobUpdated c8FinalJob [c8FinalJob]]

/-- C8, witness: the successful resolution evaluated on the concrete
store: the collaborator is invoked and the job ends finished with the
category merged in. -/
theorem c8_witness :
    (true : Bool) = true ∧
    getJob c8FinalStore 0 = some c8FinalJob ∧
    c8FinalJob.status = Status.finished :=
  ⟨(c8_setCategory_success c8Env c8Store 0 "7" c8Job c8FinalStore c8Evs
      true (by decide) (by decide) rfl).1,
   by decide, by decide⟩

/-! Claim C5: the description normalizer. -/

/-- A successful literal match leaves exactly the suffix after the
literal's length. -/
theorem stripLit_drop (lit : List Char) :
    ∀ (s rest : List Char), stripLit lit s = some rest →
      rest = s.drop lit.length := by
  induction lit with
  | nil =>
    intro s rest h
    simp [stripLit] at h
    simp [h]
  | cons l ls ih =>
    intro s rest h
    cases s with
    | nil => simp [stripLit] at h
    | cons c cs =>
      rw [stripLit] at h
      by_cases hc : lowerChar l = lowerChar c
      · rw [if_pos hc] at h
        have := ih cs rest h
        simpa using this
      · rw [if_neg hc] at h
        exact Option.noConfusion h

/-- The in-place recursive strip of the embedding coincides with the
index-based reading of non-global `String.replace`: find the leftmost
match, then cut it (or the whole tail, for a to-end rule). -/
theorem applyRule_eq_spec (r : StripRule) :
    ∀ s : List Char, applyRule r s = applyRuleSpec r s := by
  intro s
  induction s with
  | nil =>
    cases hm : matchHere r [] <;>
      simp [applyRule, applyRuleSpec, matchIdx, hm]
  | cons c cs ih =>
    cases hm : matchHere r (c :: cs)
    · rw [applyRule, if_neg (by simp [hm])]
      rw [applyRuleSpec, matchIdx, if_neg (by simp [hm])]
      rw [ih, applyRuleSpec]
      cases hi : matchIdx r cs with
      | none => simp
      | some i =>
        simp only [Option.map_some]
        by_cases ht : r.toEnd
        · simp [ht, List.take_succ_cons]
        · have harith : i + 1 + r.lit.length = (i + r.lit.length) + 1 := by
            omega
          simp [ht, List.take_succ_cons, harith, List.drop_succ_cons]
    · have hrest : ∃ rest, stripLit r.lit (c :: cs) = some rest := by
        rw [matchHere] at hm
        cases hs : stripLit r.lit (c :: cs) with
        | none => rw [hs] at hm; exact Bool.noConfusion hm
        | some rest => exact ⟨rest, rfl⟩
      obtain ⟨rest, hs⟩ := hrest
      have hdrop := stripLit_drop r.lit (c :: cs) rest hs
      rw [applyRule, if_pos hm]
      rw [applyRuleSpec, matchIdx, if_pos hm]
      by_cases ht : r.toEnd
      · simp [ht]
      · simp [ht, hs, hdrop]

/-- C5 (amended): the normalizer applies the fixed ordered list of
case-insensitive pattern-strip rules, but each rule removes only the
FIRST (leftmost) match of the rule — not every match — before the next
rule is applied (the source regexes carry no global flag), then trims
surrounding whitespace; the result is a total function into strings
(possibly empty, never null). -/
theorem c5_amended (s : String) :
    removeSubstrings s = removeSubstringsSpec s := by
  unfold removeSubstrings removeSubstringsSpec
  have hfold : ∀ (rs : List StripRule) (t : List Char),
      rs.foldl (fun res r => applyRule r res) t =
        rs.foldl (fun res r => applyRuleSpec r res) t := by
    intro rs
    induction rs with
    | nil => intro t; rfl
    | cons r rest ih =>
      intro t
      rw [List.foldl_cons, List.foldl_cons, applyRule_eq_spec, ih]
  rw [hfold]

/-- C5, counterexample: on a description holding two occurrences of the
CRV marker, the normalizer removes only the first one — the second
occurrence survives into the output, and the CRV rule still matches the
output — refuting the claim that each rule removes every match. -/
theorem c5_counterexample :
    removeSubstrings "CRV* A CRV* B" = "A CRV* B" ∧
    applyRule crvRule ("A CRV* B").toList ≠ ("A CRV* B").toList := by
  constructor
  · decide
  · decide

end FireflyAI
